import Mathlib

/-!
Shallow embedding of the backrun-search engine of `hindsight`
(`src/simulator/src/sim/core.rs`) together with the data model of
`src/simulator/src/interfaces.rs`, and theorems settling the claims about it.

Modelling conventions:
* `U256` values are `Nat`; Rust `U256` arithmetic panics on overflow or
  underflow, so theorems about real invocations add the bounds hypotheses that
  rule the panicking inputs out where this matters.
* `I256` values are `Int`; `I256::from_raw` is two's-complement
  reinterpretation of a 256-bit word.
* Chain access (`crate::util`: `get_pair_tokens`, `get_other_pair_addresses`,
  the receipt fetch) and the probe-pricing helpers (`crate::sim::evm`), whose
  sources are not part of the core file, are oracle fields of a `Client`
  record; the EVM (`revm`) and the `rusty_sando` braindance codec are oracle
  fields of an `EvmMachine` record.  The control flow of `core.rs` itself is
  translated literally.
-/

set_option maxRecDepth 10000

/-- Two's-complement reinterpretation of an `I256` as a 256-bit word,
`I256::into_raw`. -/
def Int.intoRaw (i : Int) : Nat :=
  (i % (2 ^ 256 : Int)).toNat

deriving instance DecidableEq for Except

namespace Hindsight

/-- 20-byte account identifier, modelled as a natural number. -/
abbrev Address := Nat

/-- Two's-complement reinterpretation of a 256-bit word, `I256::from_raw`. -/
def I256.fromRaw (n : Nat) : Int :=
  if n < 2 ^ 255 then (n : Int) else (n : Int) - 2 ^ 256

/-- Big-endian byte-list to natural number, `U256::from_big_endian`. -/
def beBytes (bs : List Nat) : Nat :=
  bs.foldl (fun acc b => acc * 256 + b % 256) 0

/-- `U256::from_big_endian(&data[lo..hi])`. -/
def sliceBE (data : List Nat) (lo hi : Nat) : Nat :=
  beBytes ((data.drop lo).take (hi - lo))

/-- `interfaces.rs`: `PoolVariant`. -/
inductive PoolVariant
  | uniswapV2
  | uniswapV3
deriving DecidableEq, Repr

/-- `interfaces.rs`: `PoolVariant::other`. -/
def PoolVariant.other : PoolVariant → PoolVariant
  | .uniswapV2 => .uniswapV3
  | .uniswapV3 => .uniswapV2

/-- `interfaces.rs`: `TokenPair`. -/
structure TokenPair where
  weth : Address
  token : Address
deriving DecidableEq, Repr

/-- `interfaces.rs`: `UserTradeParams`. -/
structure UserTradeParams where
  pool_variant : PoolVariant
  token_in : Address
  token_out : Address
  amount0_sent : Int
  amount1_sent : Int
  token0_is_weth : Bool
  pool : Address
  price : Nat
  tokens : TokenPair
  arb_pools : List Address
deriving DecidableEq, Repr

/-- `interfaces.rs`: `BackrunResult`. -/
structure BackrunResult where
  amount_in : Nat
  balance_end : Nat
  profit : Nat
  start_pool : Address
  end_pool : Address
  arb_variant : PoolVariant
deriving DecidableEq, Repr

/-- `interfaces.rs`: `SimArbResult`. -/
structure SimArbResult where
  user_trade : UserTradeParams
  backrun_trade : BackrunResult
deriving DecidableEq, Repr

/-- Subset of `ethers::types::Transaction` observed by the core; the remaining
fields (`from`, `to`, calldata, gas data) are consumed opaquely by the EVM
oracle through `inject_tx`, so only the hash is kept explicit. -/
structure Tx where
  hash : Nat
deriving DecidableEq, Repr

/-- `rusty_sando::types::BlockInfo` (fields the core reads). -/
structure BlockInfo where
  number : Nat
  base_fee : Nat
  timestamp : Nat
  coinbase : Address
deriving DecidableEq, Repr

/-- An MEV-share hint log (`mev_share_sse::EventTransactionLog`): only the
address and `topics[0]` are meaningful, the remaining topic slots are zeroed
out by the relay, and `core.rs` reads exactly `log.address` and
`log.topics[0]`. -/
structure EventTransactionLog where
  address : Address
  topic0 : Nat
deriving DecidableEq, Repr

/-- The hint-log list of a `mev_share_sse::EventHistory` (the only part of the
event the decoder reads, via `event.hint.logs`). -/
structure EventHist where
  logs : List EventTransactionLog
deriving DecidableEq, Repr

/-- A full receipt log: address, topic list, raw data bytes. -/
structure FullLog where
  address : Address
  topics : List Nat
  data : List Nat
deriving DecidableEq, Repr

/-- A transaction receipt (the log list is all the decoder reads). -/
structure Receipt where
  logs : List FullLog
deriving DecidableEq, Repr

/-- V3 `Swap` topic constant from `derive_trade_params`. -/
def univ3_topic : Nat :=
  0xc42079f94a6350d7e6235f29174924f928cc2ac818eb64fed8004e115fbcca67

/-- V2 `Swap` topic constant from `derive_trade_params`. -/
def univ2_topic : Nat :=
  0xd78ad95fa46c994b6551d0da85fc275fe613ce37657fb8d5e3d130840159d822

/-- V2 `Sync` topic constant from `derive_trade_params`. -/
def sync_topic : Nat :=
  0x1c411e9a96e071241c2f21f7726b17ae89e3cab4c78be50e062b03a9fffbbad1

/-- `uniswap_topics` from `derive_trade_params`. -/
def uniswap_topics : List Nat := [univ3_topic, univ2_topic]

/-- Mainnet WETH address constant from `derive_trade_params`. -/
def WETH_ADDRESS : Address := 0xc02aaa39b223fe8d0a0e5c4f27ead9083c756cc2

/-- Halt reasons of `revm` (`ExecutionResult::Halt { reason }`); the actual
enum is larger but closed, and none of its `Debug` renderings contains the
substring `swap reverted`, which is all the core ever inspects. -/
inductive HaltReason
  | outOfGas
  | opcodeNotFound
  | invalidFEOpcode
  | otherHalt
deriving DecidableEq, Repr

/-- Abstract `revm` EVM error (`EVMError`), returned by `transact_commit`. -/
inductive EvmError
  | databaseError
  | otherEvmError
deriving DecidableEq, Repr

/-- Abstract ABI-decoding failure of the braindance result decoders. -/
inductive DecodeError
  | abiDecodeError
deriving DecidableEq, Repr

/-- `revm::primitives::Output` (the payload of a successful execution). -/
inductive Output
  | call (bytes : List Nat)
  | create (bytes : List Nat)
deriving DecidableEq, Repr

/-- `revm::primitives::ExecutionResult`, restricted to the fields the core
reads (`output`, `gas_used`, `reason`). -/
inductive ExecutionResult
  | success (output : Output)
  | revert (output : List Nat) (gas_used : Nat)
  | halt (reason : HaltReason)
deriving DecidableEq, Repr

/-- Error kinds produced by the core.  The source uses `anyhow` strings and
later sniffs them with `err.contains(...)`; every message is generated by a
fixed format string whose payloads (byte lists, closed enums) cannot contain
the sniffed substrings, so the structured form below is an exact model. -/
inductive SimErr
  | poolNotFound (pool : Address)
  | txNotLanded (txHash : Nat)
  | noSwapLogsFound (txHash : Nat)
  | failedToCommitSwap (e : EvmError)
  | swapReverted (output : List Nat) (gas_used : Nat)
  | swapHalted (reason : HaltReason)
  | failedToDecodeSwapResult (e : DecodeError)
  | failedToSimulateTx (txHash : Nat) (e : EvmError)
  | noOpportunity
  | allSwapsReverted
  | systemError
deriving DecidableEq, Repr

/-- `err.to_string().contains("swap reverted")`: only the
`swap reverted: {:?} (gas used: {:?})` message matches. -/
def SimErr.containsSwapReverted : SimErr → Bool
  | .swapReverted _ _ => true
  | _ => false

/-- `err.to_string().contains("no other pool found")`: only the
`HindsightError::PoolNotFound` rendering matches (the error enum itself lives
outside `core.rs`; spec §7 names the variant). -/
def SimErr.containsNoOtherPoolFound : SimErr → Bool
  | .poolNotFound _ => true
  | _ => false

/-- A transaction submitted to the forked EVM: either a replayed user
transaction (via `inject_tx`) or a braindance probe swap built by
`build_swap_v{2,3}_data`. -/
inductive EvmCall
  | user (tx : Tx)
  | swap (pool_variant : PoolVariant) (amount_in : Nat)
      (target_pool token_in token_out : Address) (gas_price : Nat)
deriving DecidableEq, Repr

/-- Oracle for the forked EVM (`EVM<ForkDB>`) with state type `σ`, plus the
`rusty_sando` braindance result decoders.  `transact_commit` returns the
execution result together with the updated fork state. -/
structure EvmMachine (σ : Type) where
  transact_commit : σ → EvmCall → Except EvmError ExecutionResult × σ
  decode_swap_v2_result : List Nat → Except DecodeError (Nat × Nat)
  decode_swap_v3_result : List Nat → Except DecodeError (Nat × Nat)

/-- Oracle for the chain-access helpers the decoder and orchestrator call:
`get_transaction_receipt` (ethers), `get_pair_tokens` and
`get_other_pair_addresses` (`crate::util`), `sim_price_v2` / `sim_price_v3`
(`crate::sim::evm`).  Their implementations live outside `core.rs`; spec
§4.A/§4.D/§4.E describe them as pure queries against fixed chain state, hence
total functions here. -/
structure Client where
  get_transaction_receipt : Nat → Option Receipt
  get_pair_tokens : Address → Address × Address
  get_other_pair_addresses : Address × Address → PoolVariant → List Address
  sim_price_v2 : Address → Address → Address → Nat
  sim_price_v3 : Address → Address → Address → Nat

/-- Modelled from the spec: `crate::util::get_price_v2` is not under `src/`;
§4.E defines `price_v2(reserve0, reserve1, decimals) =
reserve1 * 10^decimals / reserve0`. -/
def get_price_v2 (reserve0 reserve1 decimals : Nat) : Nat :=
  reserve1 * 10 ^ decimals / reserve0

/-- Modelled from the spec: `crate::util::get_price_v3` is not under `src/`;
§4.E defines `price_v3(liquidity, sqrt_price_x96, decimals)` as the
token1-per-token0 price `(sqrt_price_x96 / 2^96)^2` scaled by
`10^decimals`. -/
def get_price_v3 (_liquidity sqrt_price decimals : Nat) : Nat :=
  sqrt_price ^ 2 * 10 ^ decimals / 2 ^ 192

/-- Body of the per-hint-log iteration of `derive_trade_params`
(`core.rs` lines 95-198), applied to a hint log and the matching full
receipt log. -/
def deriveOneTrade (C : Client) (receipt : Receipt) (hl : EventTransactionLog)
    (full : FullLog) : UserTradeParams :=
  let pool_address := hl.address
  let swap_topic := hl.topic0
  let pool_variant :=
    if swap_topic == univ3_topic then PoolVariant.uniswapV3 else PoolVariant.uniswapV2
  let tokens01 := C.get_pair_tokens pool_address
  let token0 := tokens01.1
  let token1 := tokens01.2
  let token0_is_weth := token0 == WETH_ADDRESS
  let sync_log := receipt.logs.find? (fun log =>
    log.topics.headD 0 == sync_topic && log.address == pool_address)
  let asp : Int × Int × Nat :=
    match pool_variant with
    | .uniswapV3 =>
      let amount0 := I256.fromRaw (sliceBE full.data 0 32)
      let amount1 := I256.fromRaw (sliceBE full.data 32 64)
      let sqrt_price := sliceBE full.data 64 96
      let liquidity := sliceBE full.data 96 128
      let new_price := get_price_v3 liquidity sqrt_price 18
      (if amount0 ≤ 0 then 0 else amount0,
       if amount1 ≤ 0 then 0 else amount1,
       new_price)
    | .uniswapV2 =>
      let amount0_out := I256.fromRaw (sliceBE full.data 64 96)
      let amount1_out := I256.fromRaw (sliceBE full.data 96 128)
      let new_price :=
        match sync_log with
        | some sl => get_price_v2 (sliceBE sl.data 0 32) (sliceBE sl.data 32 64) 18
        | none => 0
      (amount0_out, amount1_out, new_price)
  let amount0_sent := asp.1
  let amount1_sent := asp.2.1
  let new_price := asp.2.2
  let swap_0_for_1 : Bool := 0 < amount0_sent
  let token_in := if swap_0_for_1 then token0 else token1
  let token_out := if swap_0_for_1 then token1 else token0
  let arb_pools :=
    (C.get_other_pair_addresses (token_in, token_out) pool_variant).filter
      (fun pool => pool != 0)
  { pool_variant := pool_variant
    token_in := token_in
    token_out := token_out
    amount0_sent := amount0_sent
    amount1_sent := amount1_sent
    token0_is_weth := token0_is_weth
    pool := pool_address
    price := new_price
    tokens := { weth := if token0_is_weth then token0 else token1
                token := if token0_is_weth then token1 else token0 }
    arb_pools := arb_pools }

/-- The `for swap_log in swap_logs` loop of `derive_trade_params`: each hint
log must find its full receipt log (matched by address and topic containment),
else the whole derivation aborts with the `no swap logs found for tx` error
(the `ok_or(...)?` at `core.rs` lines 100-107). -/
def derive_trade_params_loop (C : Client) (tx : Tx) (receipt : Receipt) :
    List EventTransactionLog → Except SimErr (List UserTradeParams)
  | [] => .ok []
  | hl :: rest =>
    match receipt.logs.find? (fun log =>
        log.topics.contains hl.topic0 && log.address == hl.address) with
    | none => .error (.noSwapLogsFound tx.hash)
    | some full =>
      match derive_trade_params_loop C tx receipt rest with
      | .ok ts => .ok (deriveOneTrade C receipt hl full :: ts)
      | .error e => .error e

/-- `derive_trade_params` (`core.rs` lines 59-201). -/
def derive_trade_params (C : Client) (tx : Tx) (event : EventHist) :
    Except SimErr (List UserTradeParams) :=
  let swap_logs := event.logs.filter (fun log => uniswap_topics.contains log.topic0)
  match C.get_transaction_receipt tx.hash with
  | none => .error (.txNotLanded tx.hash)
  | some receipt => derive_trade_params_loop C tx receipt swap_logs

/-- `MAX_DEPTH` (`core.rs` line 30). -/
def MAX_DEPTH : Nat := 4

/-- `STEP_INTERVALS` (`core.rs` line 31). -/
def STEP_INTERVALS : Nat := 15

/-- `uniswap_v3_math::utils::RUINT_MAX_U256` converted back to `U256`. -/
def U256_MAX : Nat := 2 ^ 256 - 1

/-- `commit_braindance_swap` (`core.rs` lines 594-654).  The calldata built by
`build_swap_v{2,3}_data` together with the fixed caller/target/gas-limit
environment is absorbed into the `EvmCall.swap` payload handed to the EVM
oracle; the unused `_nonce` parameter is dropped. -/
def commit_braindance_swap (M : EvmMachine σ) (evm : σ) (pool_variant : PoolVariant)
    (amount_in : Nat) (target_pool token_in token_out : Address) (base_fee : Nat) :
    Except SimErr Nat × σ :=
  let step := M.transact_commit evm
    (.swap pool_variant amount_in target_pool token_in token_out base_fee)
  let evm' := step.2
  match step.1 with
  | .error e => (.error (.failedToCommitSwap e), evm')
  | .ok res =>
    match res with
    | .revert output gas_used => (.error (.swapReverted output gas_used), evm')
    | .halt reason => (.error (.swapHalted reason), evm')
    | .success output =>
      let o := match output with | .call o => o | .create o => o
      match pool_variant with
      | .uniswapV2 =>
        match M.decode_swap_v2_result o with
        | .ok out => (.ok out.2, evm')
        | .error e => (.error (.failedToDecodeSwapResult e), evm')
      | .uniswapV3 =>
        match M.decode_swap_v3_result o with
        | .ok out => (.ok out.2, evm')
        | .error e => (.error (.failedToDecodeSwapResult e), evm')

/-- `commit_tx` (`core.rs` lines 561-565): `inject_tx` (which always returns
`Ok`) followed by `transact_commit`, wrapping an EVM error into the
`failed to simulate tx` message. -/
def commit_tx (M : EvmMachine σ) (evm : σ) (tx : Tx) :
    Except SimErr ExecutionResult × σ :=
  let step := M.transact_commit evm (.user tx)
  match step.1 with
  | .ok res => (.ok res, step.2)
  | .error e => (.error (.failedToSimulateTx tx.hash e), step.2)

/-- The `for tx in signed_txs` loop of `sim_bundle`: commit each transaction,
keeping only the successful results. -/
def sim_bundle_list (M : EvmMachine σ) (evm : σ) :
    List Tx → List ExecutionResult × σ
  | [] => ([], evm)
  | tx :: rest =>
    let step := commit_tx M evm tx
    match step.1 with
    | .ok res =>
      let tail := sim_bundle_list M step.2 rest
      (res :: tail.1, tail.2)
    | .error _ => sim_bundle_list M step.2 rest

/-- `sim_bundle` (`core.rs` lines 576-589): the loop never propagates a failed
commit; the collected successes are returned under `Ok` unconditionally. -/
def sim_bundle (M : EvmMachine σ) (evm : σ) (signed_txs : List Tx) :
    Except SimErr (List ExecutionResult) × σ :=
  let rs := sim_bundle_list M evm signed_txs
  (.ok rs.1, rs.2)

/-- `sim_arb` (`core.rs` lines 487-534): replay the user tx, buy on
`start_pool` (failures swallowed by `unwrap_or(0)`), sell the received amount
on `end_pool` (failures propagated by `?`). -/
def sim_arb (M : EvmMachine σ) (evm : σ) (user_tx : Tx) (block_info : BlockInfo)
    (params : UserTradeParams) (amount_in : Nat)
    (start_pair_variant end_pair_variant : Address × PoolVariant) :
    Except SimErr (Nat × Nat) :=
  let start_pool := start_pair_variant.1
  let start_variant := start_pair_variant.2
  let end_pool := end_pair_variant.1
  let end_variant := end_pair_variant.2
  let bundle := sim_bundle M evm [user_tx]
  match bundle.1 with
  | .error e => .error e
  | .ok _ =>
    let buy := commit_braindance_swap M bundle.2 start_variant amount_in start_pool
      params.tokens.weth params.tokens.token block_info.base_fee
    let amount_received := match buy.1 with | .ok v => v | .error _ => 0
    let sell := commit_braindance_swap M buy.2 end_variant amount_received end_pool
      params.tokens.token params.tokens.weth
      (block_info.base_fee + block_info.base_fee * 2500 / 10000)
    match sell.1 with
    | .ok balance => .ok (amount_in, balance)
    | .error e => .error e

/-- The buy leg of `sim_arb` in isolation: the first braindance swap executed
after the user transaction has been replayed (state included). -/
def sim_arb_buy_leg (M : EvmMachine σ) (evm : σ) (user_tx : Tx)
    (block_info : BlockInfo) (params : UserTradeParams) (amount_in : Nat)
    (start_pair_variant : Address × PoolVariant) : Except SimErr Nat × σ :=
  commit_braindance_swap M (sim_bundle M evm [user_tx]).2 start_pair_variant.2
    amount_in start_pair_variant.1 params.tokens.weth params.tokens.token
    block_info.base_fee

/-- The sell leg of `sim_arb` in isolation: the second braindance swap, fed
with the buy leg's balance (or `0` when the buy leg failed, mirroring
`res.unwrap_or(0.into())`). -/
def sim_arb_sell_leg (M : EvmMachine σ) (evm : σ) (user_tx : Tx)
    (block_info : BlockInfo) (params : UserTradeParams) (amount_in : Nat)
    (start_pair_variant end_pair_variant : Address × PoolVariant) :
    Except SimErr Nat × σ :=
  let buy := sim_arb_buy_leg M evm user_tx block_info params amount_in start_pair_variant
  commit_braindance_swap M buy.2 end_pair_variant.2
    (match buy.1 with | .ok v => v | .error _ => 0) end_pair_variant.1
    params.tokens.token params.tokens.weth
    (block_info.base_fee + block_info.base_fee * 2500 / 10000)

/-- The aggregation loop of `step_arb` (`core.rs` lines 284-312): fold the
band results, keeping the max-by-balance best, propagating a
`no other pool found` error, counting `swap reverted` errors, and returning
`all swaps reverted` as soon as `num_reverts == revenue_len`. -/
def step_arb_aggregate (revenue_len : Nat) :
    List (Except SimErr (Nat × Nat)) → (Nat × Nat) → Nat →
    Except SimErr ((Nat × Nat) × Nat)
  | [], best, num_reverts => .ok (best, num_reverts)
  | r :: rest, best, num_reverts =>
    match r with
    | .ok ab =>
      let best' := if ab.2 > best.2 then ab else best
      if num_reverts == revenue_len then .error .allSwapsReverted
      else step_arb_aggregate revenue_len rest best' num_reverts
    | .error e =>
      if e.containsNoOtherPoolFound then .error e
      else
        let nr := if e.containsSwapReverted then num_reverts + 1 else num_reverts
        if nr == revenue_len then .error .allSwapsReverted
        else step_arb_aggregate revenue_len rest best nr

/-- `step_arb` (`core.rs` lines 205-357), made structurally recursive on an
explicit fuel argument.  The source recursion strictly decreases the measure
`depth ↦ (none => MAX_DEPTH + 2 | some d => MAX_DEPTH + 1 - d)`, so any fuel
above that measure (in particular the `MAX_DEPTH + 3` used by `step_arb`)
never reaches the fuel-exhaustion branch; `step_arb_fuel_irrelevant` below
proves this.  Each band rebuilds a fork of the same block from the same
client, which in this fixed-chain-state model is the same `fork` value. -/
def step_arb_fuel (M : EvmMachine σ) (fork : σ) (user_tx : Tx)
    (block_info : BlockInfo) :
    Nat → UserTradeParams → Option (Nat × Nat) → Nat × Nat → Nat →
    Option Nat → Address × PoolVariant → Address × PoolVariant →
    Except SimErr (Nat × Nat)
  | 0, _, _, _, _, _, _, _ => .error .systemError
  | fuel + 1, params, best_amount_in_out, range, intervals, depth,
      start_pair_variant, end_pair_variant =>
    if params.arb_pools.length == 0 then .error (.poolNotFound params.pool)
    else if range.2 - range.1 < 500000 * 1000000000 then
      match best_amount_in_out with
      | some best => .ok best
      | none => .error .noOpportunity
    else
      let best0 := best_amount_in_out.getD (0, 0)
      match depth with
      | none =>
        step_arb_fuel M fork user_tx block_info fuel params (some best0) range
          intervals (some 0) start_pair_variant end_pair_variant
      | some d =>
        if MAX_DEPTH < d ∨ (0 < best0.1 ∧ best0.1 < 180000 * block_info.base_fee) then
          .ok best0
        else
          let band_width := (range.2 - range.1) / intervals
          let results := (List.range intervals).map (fun i =>
            sim_arb M fork user_tx block_info params (range.1 + band_width * i)
              start_pair_variant end_pair_variant)
          match step_arb_aggregate results.length results best0 0 with
          | .error e => .error e
          | .ok bestNr =>
            let best1 := bestNr.1
            let new_range :=
              (if best1.1 < band_width then 0 else best1.1 - band_width,
               if U256_MAX - best1.1 < band_width then U256_MAX
               else best1.1 + band_width)
            step_arb_fuel M fork user_tx block_info fuel params (some best1)
              new_range intervals (some (d + 1)) start_pair_variant end_pair_variant

/-- `step_arb`, at the fuel bound sufficient for every input. -/
def step_arb (M : EvmMachine σ) (fork : σ) (user_tx : Tx) (block_info : BlockInfo)
    (params : UserTradeParams) (best_amount_in_out : Option (Nat × Nat))
    (range : Nat × Nat) (intervals : Nat) (depth : Option Nat)
    (start_pair_variant end_pair_variant : Address × PoolVariant) :
    Except SimErr (Nat × Nat) :=
  step_arb_fuel M fork user_tx block_info (MAX_DEPTH + 3) params best_amount_in_out
    range intervals depth start_pair_variant end_pair_variant

/-- Orientation resolution of the orchestrator (`core.rs` lines 399-414). -/
def resolve_orientation (params : UserTradeParams) (alt_price : Nat)
    (other_pool : Address) : Address × PoolVariant × Address :=
  if params.token0_is_weth then
    if params.price > alt_price then (params.pool, params.pool_variant, other_pool)
    else (other_pool, params.pool_variant.other, params.pool)
  else
    if params.price > alt_price then (other_pool, params.pool_variant.other, params.pool)
    else (params.pool, params.pool_variant, other_pool)

/-- The `(start_pair_variant, end_pair_variant)` argument pair the orchestrator
hands to `step_arb` (`core.rs` lines 447-448): the resolved start pool with its
family, and the resolved end pool with the start family's `other()`. -/
def step_arb_pair_variants (params : UserTradeParams) (alt_price : Nat)
    (other_pool : Address) : (Address × PoolVariant) × (Address × PoolVariant) :=
  let o := resolve_orientation params alt_price other_pool
  ((o.1, o.2.1), (o.2.2, o.2.1.other))

/-- `amount_in_start` computation of the orchestrator (`core.rs` lines
417-429): the WETH the user sent, or the token amount converted through the
decoded post-trade price. -/
def amount_in_start (params : UserTradeParams) : Nat :=
  if params.token_in == params.tokens.weth then
    if params.token0_is_weth then params.amount0_sent.intoRaw
    else params.amount1_sent.intoRaw
  else
    if params.token0_is_weth then params.amount1_sent.intoRaw * params.price
    else params.amount0_sent.intoRaw * params.price

/-- Counterpart-pool pricing of the orchestrator (`core.rs` lines 385-396):
the last `arb_pools` entry is priced with the opposite family's probe-pricing
routine. -/
def orchestrator_alt_price (C : Client) (params : UserTradeParams)
    (other_pool : Address) : Nat :=
  match params.pool_variant with
  | .uniswapV2 => C.sim_price_v3 other_pool params.token_in params.token_out
  | .uniswapV3 => C.sim_price_v2 other_pool params.token_in params.token_out

/-- Per-trade task body of `find_optimal_backrun_amount_in_out` (`core.rs`
lines 374-472): skip trades with no counterpart pool, price the last
counterpart with the opposite family's pricing routine, resolve orientation,
search, and package a `SimArbResult` (errors become `None`).
`start_balance` is `braindance_starting_balance()`, a constant of the external
`rusty_sando` crate (spec §4.B: the probe's fixed starting balance `S`). -/
def process_trade_params (C : Client) (M : EvmMachine σ) (fork : σ)
    (start_balance : Nat) (user_tx : Tx) (block_info : BlockInfo)
    (params : UserTradeParams) : Option SimArbResult :=
  if params.arb_pools.length == 0 then none
  else
    let other_pool := params.arb_pools.getLastD 0
    let alt_price := orchestrator_alt_price C params other_pool
    let pv := step_arb_pair_variants params alt_price other_pool
    let res := step_arb M fork user_tx block_info params none
      (0, amount_in_start params) STEP_INTERVALS none pv.1 pv.2
    match res with
    | .ok r =>
      some { user_trade := params
             backrun_trade :=
               { amount_in := r.1
                 balance_end := r.2
                 profit := if r.2 > start_balance then r.2 - start_balance else 0
                 start_pool := pv.1.1
                 end_pool := pv.2.1
                 arb_variant := pv.1.2.other } }
    | .error _ => none

/-- `find_optimal_backrun_amount_in_out` (`core.rs` lines 360-484): decode the
trades, run one search per decoded trade, and keep the `Some` results. -/
def find_optimal_backrun_amount_in_out (C : Client) (M : EvmMachine σ) (fork : σ)
    (start_balance : Nat) (user_tx : Tx) (event : EventHist)
    (block_info : BlockInfo) : Except SimErr (List SimArbResult) :=
  match derive_trade_params C user_tx event with
  | .error e => .error e
  | .ok ps =>
    .ok (ps.filterMap (process_trade_params C M fork start_balance user_tx block_info))

/-!
Concrete instances used to evaluate the embedding on explicit inputs:
a block, a user transaction, receipts with byte-exact log data, simple chain
oracles, and a handful of small EVM machines.
-/

/-- 32-byte big-endian encoding of a number below `2^256`. -/
def be32 (n : Nat) : List Nat :=
  (List.range 32).map (fun i => n / 256 ^ (31 - i) % 256)

/-- A concrete user transaction. -/
def tx0 : Tx := ⟨100⟩

/-- A concrete block with base fee 10 wei. -/
def blk0 : BlockInfo := ⟨1, 10, 0, 0⟩

/-- V2 `Swap` log data: `amount0In = 0`, `amount1In = 0`,
`amount0Out = 10^15`, `amount1Out = 0`. -/
def swap_data0 : List Nat := be32 0 ++ be32 0 ++ be32 (10 ^ 15) ++ be32 0

/-- V2 `Sync` log data: `reserve0 = 10^18`, `reserve1 = 2 * 10^18`. -/
def sync_data0 : List Nat := be32 (10 ^ 18) ++ be32 (2 * 10 ^ 18)

/-- Full receipt `Swap` log of pool `5`. -/
def full_log0 : FullLog := ⟨5, [univ2_topic], swap_data0⟩

/-- Full receipt `Sync` log of pool `5`. -/
def sync_log0 : FullLog := ⟨5, [sync_topic], sync_data0⟩

/-- Receipt of `tx0`: one V2 swap and its sync. -/
def receipt0 : Receipt := ⟨[full_log0, sync_log0]⟩

/-- MEV-share hint for the V2 swap on pool `5`. -/
def hint0 : EventTransactionLog := ⟨5, univ2_topic⟩

/-- Event history carrying exactly `hint0`. -/
def event0 : EventHist := ⟨[hint0]⟩

/-- Chain oracle for the scenario: pool `5` pairs WETH with token `77`, the
counterpart pool is `6`, and both probe prices are `1`. -/
def client0 : Client where
  get_transaction_receipt := fun h => if h == 100 then some receipt0 else none
  get_pair_tokens := fun _ => (WETH_ADDRESS, 77)
  get_other_pair_addresses := fun _ _ => [6]
  sim_price_v2 := fun _ _ _ => 1
  sim_price_v3 := fun _ _ _ => 1

/-- The `UserTradeParams` the decoder derives from `client0 / tx0 / event0`:
the user sold `10^15` wei of WETH (token0) for token `77` on V2 pool `5`,
post-trade price `2 * 10^18`. -/
def params0 : UserTradeParams :=
  { pool_variant := .uniswapV2
    token_in := WETH_ADDRESS
    token_out := 77
    amount0_sent := (10 ^ 15 : Int)
    amount1_sent := 0
    token0_is_weth := true
    pool := 5
    price := 2 * 10 ^ 18
    tokens := { weth := WETH_ADDRESS, token := 77 }
    arb_pools := [6] }

/-- EVM machine on which every call succeeds and every decoded swap balance is
`0`: the search never improves on a zero balance. -/
def M_zero : EvmMachine Unit where
  transact_commit := fun _ _ => (.ok (.success (.call [])), ())
  decode_swap_v2_result := fun _ => .ok (0, 0)
  decode_swap_v3_result := fun _ => .ok (0, 0)

/-- EVM machine (state = number of committed calls) on which the user tx
succeeds, the first braindance swap after it reverts with output bytes `[7]`
and gas `9`, and every later swap succeeds with decoded balance `42`. -/
def M_buy_revert : EvmMachine Nat where
  transact_commit := fun s c =>
    match c with
    | .user _ => (.ok (.success (.call [])), s + 1)
    | .swap _ _ _ _ _ _ =>
      if s == 1 then (.ok (.revert [7] 9), s + 1)
      else (.ok (.success (.call [])), s + 1)
  decode_swap_v2_result := fun _ => .ok (0, 42)
  decode_swap_v3_result := fun _ => .ok (0, 42)

/-- EVM machine on which the user tx succeeds and every braindance swap halts
with an out-of-gas reason. -/
def M_halt : EvmMachine Unit where
  transact_commit := fun _ c =>
    match c with
    | .user _ => (.ok (.success (.call [])), ())
    | .swap _ _ _ _ _ _ => (.ok (.halt .outOfGas), ())
  decode_swap_v2_result := fun _ => .ok (0, 0)
  decode_swap_v3_result := fun _ => .ok (0, 0)

/-- EVM machine (state = number of committed calls) on which the user tx
succeeds, the first braindance swap succeeds with decoded balance `3`, and the
second braindance swap reverts with output bytes `[8]` and gas `11`. -/
def M_sell_revert : EvmMachine Nat where
  transact_commit := fun s c =>
    match c with
    | .user _ => (.ok (.success (.call [])), s + 1)
    | .swap _ _ _ _ _ _ =>
      if s == 2 then (.ok (.revert [8] 11), s + 1)
      else (.ok (.success (.call [])), s + 1)
  decode_swap_v2_result := fun _ => .ok (0, 3)
  decode_swap_v3_result := fun _ => .ok (0, 3)

/-- The `SimArbResult` the orchestrator produces from `client0 / M_zero`. -/
def result0 : SimArbResult :=
  { user_trade := params0
    backrun_trade :=
      { amount_in := 0
        balance_end := 0
        profit := 0
        start_pool := 5
        end_pool := 6
        arb_variant := .uniswapV3 } }

/-- Event history with an extra V2 hint on pool `9`, for which `receipt0`
holds no matching log. -/
def event3 : EventHist := ⟨[⟨9, univ2_topic⟩, hint0]⟩

/-- V2 `Swap` log data with `amount0Out` having the top bit set (a negative
`I256`) and `amount1Out = 0`. -/
def swap_data9 : List Nat := be32 0 ++ be32 0 ++ be32 (2 ^ 255) ++ be32 0

/-- Receipt whose only log is the negative-amount V2 swap (no `Sync`). -/
def receipt9 : Receipt := ⟨[⟨5, [univ2_topic], swap_data9⟩]⟩

/-- `client0` with `receipt9` as the receipt of `tx0`. -/
def client9 : Client :=
  { client0 with get_transaction_receipt := fun h => if h == 100 then some receipt9 else none }

/-- The trade the decoder emits from `client9 / tx0 / event0`: both decoded
amounts are non-positive (`amount0_sent = -(2^255)`), yet the trade is
emitted. -/
def params9 : UserTradeParams :=
  { pool_variant := .uniswapV2
    token_in := 77
    token_out := WETH_ADDRESS
    amount0_sent := -(2 ^ 255 : Int)
    amount1_sent := 0
    token0_is_weth := true
    pool := 5
    price := 0
    tokens := { weth := WETH_ADDRESS, token := 77 }
    arb_pools := [6] }

/-- V3 `Swap` log data: `amount0 = 5`, `amount1 = -3` (two's complement),
`sqrtPriceX96 = 2^96`, `liquidity = 10`. -/
def swap_data9w : List Nat :=
  be32 5 ++ be32 (2 ^ 256 - 3) ++ be32 (2 ^ 96) ++ be32 10

/-- Receipt whose only log is the V3 swap above. -/
def receipt9w : Receipt := ⟨[⟨5, [univ3_topic], swap_data9w⟩]⟩

/-- `client0` with `receipt9w` as the receipt of `tx0`. -/
def client9w : Client :=
  { client0 with get_transaction_receipt := fun h => if h == 100 then some receipt9w else none }

/-- Event history carrying the V3 hint on pool `5`. -/
def event9w : EventHist := ⟨[⟨5, univ3_topic⟩]⟩

/-- The trade the decoder emits from `client9w / tx0 / event9w`: the V3 path
sign-gated `amount1` from `-3` to `0`. -/
def params9w : UserTradeParams :=
  { pool_variant := .uniswapV3
    token_in := WETH_ADDRESS
    token_out := 77
    amount0_sent := (5 : Int)
    amount1_sent := 0
    token0_is_weth := true
    pool := 5
    price := 10 ^ 18
    tokens := { weth := WETH_ADDRESS, token := 77 }
    arb_pools := [6] }

/-!
Theorems settling the claims.
-/

/-- C10: for every list of transactions, `sim_bundle` returns `Ok` — the
result is always the `Ok` of the list of successful commits, and that list is
no longer than the input list, so a transaction whose commit fails is silently
omitted rather than producing an error (callers such as `sim_arb` therefore
proceed even when replaying the user transaction fails). -/
theorem c10_sim_bundle_always_ok (σ : Type) (M : EvmMachine σ) (evm : σ)
    (signed_txs : List Tx) :
    (sim_bundle M evm signed_txs).1 = .ok (sim_bundle_list M evm signed_txs).1
    ∧ (sim_bundle_list M evm signed_txs).1.length ≤ signed_txs.length := by
  refine ⟨rfl, ?_⟩
  induction signed_txs generalizing evm with
  | nil => simp [sim_bundle_list]
  | cons tx rest ih =>
    simp only [sim_bundle_list]
    cases h : (commit_tx M evm tx).1 with
    | ok res =>
      simpa using Nat.succ_le_succ (ih _)
    | error e =>
      exact Nat.le_succ_of_le (ih _)

/-- C1 counterexample: on `M_buy_revert` the buy leg of `sim_arb` reverts
(with raw output bytes `[7]`), yet `sim_arb` returns `Ok (5, 42)` — the
buy-leg failure is silently converted into a successful simulation by
`res.unwrap_or(0.into())`, refuting the claim that any probe-swap failure
yields an error. -/
theorem c1_counterexample :
    (sim_arb_buy_leg M_buy_revert 0 tx0 blk0 params0 5 (5, .uniswapV2)).1
        = .error (.swapReverted [7] 9)
    ∧ sim_arb M_buy_revert 0 tx0 blk0 params0 5 (5, .uniswapV2) (6, .uniswapV2)
        = .ok (5, 42) :=
  ⟨by decide, by decide⟩

/-- C1 amended: only a failure of the sell leg (the second probe swap) makes
`sim_arb` return an error, and the error — `SwapReverted` with the raw output
bytes, or `SwapHalted` — is propagated unchanged; a buy-leg failure is instead
absorbed into `amount_received = 0`. -/
theorem c1_amended (σ : Type) (M : EvmMachine σ) (evm : σ) (user_tx : Tx)
    (block_info : BlockInfo) (params : UserTradeParams) (amount_in : Nat)
    (start_pair_variant end_pair_variant : Address × PoolVariant) (e : SimErr)
    (h : (sim_arb_sell_leg M evm user_tx block_info params amount_in
        start_pair_variant end_pair_variant).1 = .error e) :
    sim_arb M evm user_tx block_info params amount_in start_pair_variant
      end_pair_variant = .error e := by
  unfold sim_arb_sell_leg sim_arb_buy_leg at h
  unfold sim_arb
  simp only [sim_bundle] at h ⊢
  rw [h]

/-- C1 amended, witness: on `M_sell_revert` the sell leg reverts with raw
output `[8]`, and `sim_arb` returns exactly that `swapReverted` error. -/
theorem c1_amended_witness :
    sim_arb M_sell_revert 0 tx0 blk0 params0 5 (5, .uniswapV2) (6, .uniswapV3)
      = .error (.swapReverted [8] 11) :=
  c1_amended Nat M_sell_revert 0 tx0 blk0 params0 5 (5, .uniswapV2)
    (6, .uniswapV3) (.swapReverted [8] 11) (by decide)

/-- The measure the source recursion of `step_arb` strictly decreases on its
depth argument. -/
def step_arb_measure : Option Nat → Nat
  | none => MAX_DEPTH + 2
  | some d => MAX_DEPTH + 1 - d

/-- Fuel adequacy: above the recursion measure the fuel argument does not
influence `step_arb_fuel`, so `step_arb`'s fixed fuel `MAX_DEPTH + 3` — which
strictly dominates every measure value — never reaches the fuel-exhaustion
branch and the fuelled translation computes exactly the source recursion. -/
theorem step_arb_fuel_irrelevant (σ : Type) (M : EvmMachine σ) (fork : σ)
    (user_tx : Tx) (block_info : BlockInfo) :
    ∀ (fuel₁ fuel₂ : Nat) (params : UserTradeParams)
      (best : Option (Nat × Nat)) (range : Nat × Nat) (intervals : Nat)
      (depth : Option Nat) (spv epv : Address × PoolVariant),
      step_arb_measure depth < fuel₁ → step_arb_measure depth < fuel₂ →
      step_arb_fuel M fork user_tx block_info fuel₁ params best range intervals
          depth spv epv
        = step_arb_fuel M fork user_tx block_info fuel₂ params best range
            intervals depth spv epv := by
  intro fuel₁
  induction fuel₁ with
  | zero =>
    intro fuel₂ params best range intervals depth spv epv h1 _
    omega
  | succ fuel₁ ih =>
    intro fuel₂ params best range intervals depth spv epv h1 h2
    cases fuel₂ with
    | zero => omega
    | succ fuel₂ =>
      by_cases hp : (params.arb_pools.length == 0) = true
      · simp only [step_arb_fuel, hp, if_true]
      · simp only [step_arb_fuel, hp, Bool.false_eq_true, if_false]
        by_cases hw : range.2 - range.1 < 500000 * 1000000000
        · simp only [if_pos hw]
        · simp only [if_neg hw]
          cases depth with
          | none =>
            refine ih fuel₂ params (some (best.getD (0, 0))) range intervals
              (some 0) spv epv ?_ ?_ <;>
              simp only [step_arb_measure, MAX_DEPTH] at h1 h2 ⊢ <;> omega
          | some d =>
            by_cases hs : MAX_DEPTH < d ∨ (0 < (best.getD (0, 0)).1
                ∧ (best.getD (0, 0)).1 < 180000 * block_info.base_fee)
            · simp only [if_pos hs]
            · simp only [if_neg hs]
              have hd : d ≤ MAX_DEPTH := by
                rcases not_or.mp hs with ⟨hd, _⟩
                omega
              cases hagg : step_arb_aggregate
                  ((List.range intervals).map (fun i =>
                    sim_arb M fork user_tx block_info params
                      (range.1 + (range.2 - range.1) / intervals * i) spv epv)).length
                  ((List.range intervals).map (fun i =>
                    sim_arb M fork user_tx block_info params
                      (range.1 + (range.2 - range.1) / intervals * i) spv epv))
                  (best.getD (0, 0)) 0 with
              | error e => simp only [hagg]
              | ok bestNr =>
                simp only [hagg]
                refine ih fuel₂ params (some bestNr.1) _ intervals (some (d + 1))
                  spv epv ?_ ?_ <;>
                  simp only [step_arb_measure, MAX_DEPTH] at h1 h2 hd ⊢ <;> omega

/-- One-step unfolding helper: with any positive fuel, a `step_arb` invocation
whose depth or cost-floor stop condition holds returns the current best
without consulting the EVM oracle. -/
theorem step_arb_fuel_stop (σ : Type) (M : EvmMachine σ) (fork : σ) (user_tx : Tx)
    (block_info : BlockInfo) (fuel : Nat) (params : UserTradeParams) (a b : Nat)
    (range : Nat × Nat) (intervals k : Nat)
    (start_pair_variant end_pair_variant : Address × PoolVariant)
    (hpools : params.arb_pools ≠ [])
    (hstop : MAX_DEPTH < k ∨ (0 < a ∧ a < 180000 * block_info.base_fee)) :
    step_arb_fuel M fork user_tx block_info (fuel + 1) params (some (a, b)) range
      intervals (some k) start_pair_variant end_pair_variant = .ok (a, b) := by
  have hlen : (params.arb_pools.length == 0) = false := by
    simp only [beq_eq_false_iff_ne, ne_eq, List.length_eq_zero]
    exact hpools
  simp only [step_arb_fuel, hlen, Bool.false_eq_true, if_false]
  by_cases hw : range.2 - range.1 < 500000 * 1000000000
  · rw [if_pos hw]
  · rw [if_neg hw]
    simp only [Option.getD_some]
    rw [if_pos hstop]

/-- C5: a `step_arb` invocation with depth `Some k` where `k > MAX_DEPTH = 4`,
or whose current best `amount_in*` satisfies
`0 < amount_in* < 180_000 * base_fee`, returns the current best
`(amount_in*, balance_end*)`; the EVM machine `M` and fork are universally
quantified and never consulted, so no further simulations are run.  The
`hrange` hypothesis excludes the inputs on which the Rust `U256` width
subtraction would panic. -/
theorem c5_stop_conditions (σ : Type) (M : EvmMachine σ) (fork : σ) (user_tx : Tx)
    (block_info : BlockInfo) (params : UserTradeParams) (a b : Nat)
    (range : Nat × Nat) (intervals k : Nat)
    (start_pair_variant end_pair_variant : Address × PoolVariant)
    (hpools : params.arb_pools ≠ [])
    (_hrange : range.1 ≤ range.2)
    (hstop : MAX_DEPTH < k ∨ (0 < a ∧ a < 180000 * block_info.base_fee)) :
    step_arb M fork user_tx block_info params (some (a, b)) range intervals
      (some k) start_pair_variant end_pair_variant = .ok (a, b) :=
  step_arb_fuel_stop σ M fork user_tx block_info (MAX_DEPTH + 2) params a b range
    intervals k start_pair_variant end_pair_variant hpools hstop

/-- C5 witness: a concrete invocation at depth `5 > MAX_DEPTH` returns its
current best `(1, 3)` on the all-zero machine. -/
theorem c5_witness :
    step_arb M_zero () tx0 blk0 params0 (some (1, 3)) (0, 10 ^ 15) 15 (some 5)
      (5, .uniswapV2) (6, .uniswapV3) = .ok (1, 3) :=
  c5_stop_conditions Unit M_zero () tx0 blk0 params0 1 3 (0, 10 ^ 15) 15 5
    (5, .uniswapV2) (6, .uniswapV3) (by decide) (by decide) (Or.inl (by decide))

/-- One-step unfolding helper: with any positive fuel, a `step_arb`
invocation whose bracket is narrower than `W_MIN` returns the current best
when one exists and the `NoOpportunity` error otherwise. -/
theorem step_arb_fuel_width_exit (σ : Type) (M : EvmMachine σ) (fork : σ)
    (user_tx : Tx) (block_info : BlockInfo) (fuel : Nat)
    (params : UserTradeParams) (best : Option (Nat × Nat)) (range : Nat × Nat)
    (intervals : Nat) (depth : Option Nat)
    (start_pair_variant end_pair_variant : Address × PoolVariant)
    (hpools : params.arb_pools ≠ [])
    (hw : range.2 - range.1 < 500000 * 1000000000) :
    step_arb_fuel M fork user_tx block_info (fuel + 1) params best range
      intervals depth start_pair_variant end_pair_variant
      = match best with
        | some b => .ok b
        | none => .error .noOpportunity := by
  have hlen : (params.arb_pools.length == 0) = false := by
    simp only [beq_eq_false_iff_ne, ne_eq, List.length_eq_zero]
    exact hpools
  simp only [step_arb_fuel, hlen, Bool.false_eq_true, if_false]
  rw [if_pos hw]

/-- C6 amended: when `range_hi − range_lo < W_MIN` the driver returns the
current best when one exists, and the `NoOpportunity` error exactly when the
current best is `None` — which happens only on the initial invocation, before
any band has been simulated, since every recursive call passes `Some`.  (It is
not the case that `NoOpportunity` is returned whenever the search never
improved on `balance_end* = 0`: after the bootstrap the best is
`Some (0, 0)`, so such searches return `Ok (0, 0)` — see the
counterexample.)  The `hrange` hypothesis excludes the inputs on which the
Rust `U256` width subtraction would panic. -/
theorem c6_amended (σ : Type) (M : EvmMachine σ) (fork : σ) (user_tx : Tx)
    (block_info : BlockInfo) (params : UserTradeParams)
    (best : Option (Nat × Nat)) (range : Nat × Nat) (intervals : Nat)
    (depth : Option Nat) (start_pair_variant end_pair_variant : Address × PoolVariant)
    (hpools : params.arb_pools ≠ [])
    (_hrange : range.1 ≤ range.2)
    (hw : range.2 - range.1 < 500000 * 1000000000) :
    step_arb M fork user_tx block_info params best range intervals depth
      start_pair_variant end_pair_variant
      = match best with
        | some b => .ok b
        | none => .error .noOpportunity :=
  step_arb_fuel_width_exit σ M fork user_tx block_info (MAX_DEPTH + 2) params
    best range intervals depth start_pair_variant end_pair_variant hpools hw

/-- C6 amended, witness: a concrete invocation with a tight bracket and no
current best returns the `NoOpportunity` error. -/
theorem c6_amended_witness :
    step_arb M_zero () tx0 blk0 params0 none (0, 5) 15 none
      (5, .uniswapV2) (6, .uniswapV3) = .error .noOpportunity :=
  c6_amended Unit M_zero () tx0 blk0 params0 none (0, 5) 15 none
    (5, .uniswapV2) (6, .uniswapV3) (by decide) (by decide) (by decide)

/-- C6 counterexample: on `M_zero` every band simulation succeeds with
balance `0` (first conjunct), so the search terminates without ever improving
on `balance_end* = 0`; yet the driver returns `Ok (0, 0)` rather than the
`NoOpportunity` error (second conjunct), because after the bootstrap the
current best is `Some (0, 0)` and the width exit returns it.  This refutes
the claim that `NoOpportunity` is returned exactly when the search never
improved on `balance_end* = 0`. -/
theorem c6_counterexample :
    sim_arb M_zero () tx0 blk0 params0 0 (5, .uniswapV2) (6, .uniswapV3) = .ok (0, 0)
    ∧ step_arb M_zero () tx0 blk0 params0 none (0, 10 ^ 15) 15 none
        (5, .uniswapV2) (6, .uniswapV3) = .ok (0, 0) :=
  ⟨by decide, by decide⟩

/-- C7: the orientation table of the orchestrator has exactly the four
claimed entries — with `token0_is_weth` and `price > alt`, the start is
`params.pool` with `params.pool_variant` and the end is `other_pool`; the
`else` branch and the two `token0_is_weth = false` branches are the stated
inversions — and the end leg's family handed to `step_arb` is always the
start family's `other()`. -/
theorem c7_orientation_table :
    (∀ (params : UserTradeParams) (alt_price : Nat) (other_pool : Address),
      params.token0_is_weth = true → alt_price < params.price →
      resolve_orientation params alt_price other_pool
        = (params.pool, params.pool_variant, other_pool))
    ∧ (∀ (params : UserTradeParams) (alt_price : Nat) (other_pool : Address),
      params.token0_is_weth = true → ¬ alt_price < params.price →
      resolve_orientation params alt_price other_pool
        = (other_pool, params.pool_variant.other, params.pool))
    ∧ (∀ (params : UserTradeParams) (alt_price : Nat) (other_pool : Address),
      params.token0_is_weth = false → alt_price < params.price →
      resolve_orientation params alt_price other_pool
        = (other_pool, params.pool_variant.other, params.pool))
    ∧ (∀ (params : UserTradeParams) (alt_price : Nat) (other_pool : Address),
      params.token0_is_weth = false → ¬ alt_price < params.price →
      resolve_orientation params alt_price other_pool
        = (params.pool, params.pool_variant, other_pool))
    ∧ (∀ (params : UserTradeParams) (alt_price : Nat) (other_pool : Address),
      (step_arb_pair_variants params alt_price other_pool).2.2
        = (step_arb_pair_variants params alt_price other_pool).1.2.other) := by
  refine ⟨?_, ?_, ?_, ?_, ?_⟩ <;> intro params alt_price other_pool
  · intro h1 h2; simp [resolve_orientation, h1, h2]
  · intro h1 h2; simp [resolve_orientation, h1, h2]
  · intro h1 h2; simp [resolve_orientation, h1, h2]
  · intro h1 h2; simp [resolve_orientation, h1, h2]
  · rfl

/-- C7 witness: for the concrete trade `params0` (where `token0_is_weth` and
`price = 2·10^18 > 1 = alt`), the resolved orientation starts on the user's
pool `5` with its own family V2 and ends on the counterpart `6`. -/
theorem c7_witness :
    resolve_orientation params0 1 6 = (5, .uniswapV2, 6) :=
  c7_orientation_table.1 params0 1 6 rfl (by decide)

/-- C2 counterexample: a complete concrete orchestrator run in which the
resolved buy leg is `(pool 5, UniswapV2)` (second conjunct) while the emitted
result carries `arb_variant = UniswapV3` (first and third conjuncts) — the
code sets `arb_variant: start_pool_variant.other()`, so `arb_variant` is not
the pool family of the buy leg. -/
theorem c2_counterexample :
    find_optimal_backrun_amount_in_out client0 M_zero () 200 tx0 event0 blk0
      = .ok [result0]
    ∧ (step_arb_pair_variants params0 1 6).1 = (5, .uniswapV2)
    ∧ result0.backrun_trade.arb_variant = .uniswapV3 :=
  ⟨by decide, by decide, by decide⟩

/-- C2 amended: for every `SimArbResult` emitted by the orchestrator's
per-trade task, `arb_variant` equals the `other()` of the buy leg's family —
that is, the family of the sell leg (the end pair handed to `step_arb`) — not
the family of the buy leg. -/
theorem c2_amended (σ : Type) (C : Client) (M : EvmMachine σ) (fork : σ)
    (start_balance : Nat) (user_tx : Tx) (block_info : BlockInfo)
    (params : UserTradeParams) (r : SimArbResult)
    (h : process_trade_params C M fork start_balance user_tx block_info params
      = some r) :
    r.backrun_trade.arb_variant
      = ((step_arb_pair_variants params
          (orchestrator_alt_price C params (params.arb_pools.getLastD 0))
          (params.arb_pools.getLastD 0)).1.2).other
    ∧ r.backrun_trade.arb_variant
      = (step_arb_pair_variants params
          (orchestrator_alt_price C params (params.arb_pools.getLastD 0))
          (params.arb_pools.getLastD 0)).2.2 := by
  unfold process_trade_params at h
  split at h
  · cases h
  · dsimp only at h
    split at h
    · cases h
      exact ⟨rfl, rfl⟩
    · cases h

/-- C2 amended, witness: in the concrete run, the emitted `arb_variant`
(`UniswapV3`) is the `other()` of the buy leg's family. -/
theorem c2_amended_witness :
    result0.backrun_trade.arb_variant
      = ((step_arb_pair_variants params0 (orchestrator_alt_price client0 params0 6) 6).1.2).other :=
  (c2_amended Unit client0 M_zero () 200 tx0 blk0 params0 result0 (by decide)).1

/-- C4: every `SimArbResult` returned by
`find_optimal_backrun_amount_in_out` has
`profit = max(0, balance_end − start_balance)` — expressed with truncated
`Nat` subtraction, which is exactly that maximum — and consequently
`profit ≤ balance_end`. -/
theorem c4_profit_formula (σ : Type) (C : Client) (M : EvmMachine σ) (fork : σ)
    (start_balance : Nat) (user_tx : Tx) (event : EventHist)
    (block_info : BlockInfo) (rs : List SimArbResult) (r : SimArbResult)
    (hok : find_optimal_backrun_amount_in_out C M fork start_balance user_tx
      event block_info = .ok rs)
    (hr : r ∈ rs) :
    r.backrun_trade.profit = r.backrun_trade.balance_end - start_balance
    ∧ r.backrun_trade.profit ≤ r.backrun_trade.balance_end := by
  unfold find_optimal_backrun_amount_in_out at hok
  cases hd : derive_trade_params C user_tx event with
  | error e => rw [hd] at hok; cases hok
  | ok ps =>
    rw [hd] at hok
    cases hok
    rw [List.mem_filterMap] at hr
    obtain ⟨p, _, hp⟩ := hr
    unfold process_trade_params at hp
    split at hp
    · cases hp
    · dsimp only at hp
      split at hp
      · cases hp
        constructor
        · dsimp only
          split <;> omega
        · dsimp only
          split <;> omega
      · cases hp

/-- C4 witness: the concrete orchestrator run emits `result0`, whose profit
obeys the formula with `start_balance = 200`. -/
theorem c4_witness :
    result0.backrun_trade.profit = result0.backrun_trade.balance_end - 200
    ∧ result0.backrun_trade.profit ≤ result0.backrun_trade.balance_end :=
  c4_profit_formula Unit client0 M_zero () 200 tx0 event0 blk0 [result0] result0
    (by decide) (by simp)

/-- Aggregation helper: a nonempty batch consisting entirely of
`swap reverted` errors drives `num_reverts` up to `revenue_len` and returns
the `all swaps reverted` error. -/
theorem step_arb_aggregate_all_reverts (len : Nat) :
    ∀ (l : List (Except SimErr (Nat × Nat))) (best : Nat × Nat) (nr : Nat),
      (∀ r ∈ l, ∃ out gas, r = .error (.swapReverted out gas)) →
      nr + l.length = len → l ≠ [] →
      step_arb_aggregate len l best nr = .error .allSwapsReverted := by
  intro l
  induction l with
  | nil => intro best nr _ _ hne; exact absurd rfl hne
  | cons r rest ih =>
    intro best nr hall hlen _
    obtain ⟨out, gas, rfl⟩ := hall _ (List.mem_cons_self _ _)
    simp only [step_arb_aggregate, SimErr.containsNoOtherPoolFound,
      SimErr.containsSwapReverted, Bool.false_eq_true, if_false, if_true]
    cases rest with
    | nil =>
      have h1 : (nr + 1 == len) = true := by
        simp only [List.length_cons, List.length_nil] at hlen
        simp only [beq_iff_eq]
        omega
      simp [h1]
    | cons r2 rest2 =>
      have h1 : (nr + 1 == len) = false := by
        simp only [List.length_cons] at hlen
        simp only [beq_eq_false_iff_ne, ne_eq]
        omega
      rw [h1]
      simp only [Bool.false_eq_true, if_false]
      refine ih best (nr + 1) (fun r hr => hall r (List.mem_cons_of_mem _ hr)) ?_ (by simp)
      simp only [List.length_cons] at hlen ⊢
      omega

/-- Aggregation helper: when the revert counter cannot reach `revenue_len`
(there are strictly fewer results left than the gap), the loop never returns
`all swaps reverted`. -/
theorem step_arb_aggregate_under_len (len : Nat) :
    ∀ (l : List (Except SimErr (Nat × Nat))) (best : Nat × Nat) (nr : Nat),
      nr + l.length < len →
      step_arb_aggregate len l best nr ≠ .error .allSwapsReverted := by
  intro l
  induction l with
  | nil =>
    intro best nr _ h
    exact Except.noConfusion h
  | cons r rest ih =>
    intro best nr hlt
    simp only [List.length_cons] at hlt
    simp only [step_arb_aggregate]
    cases r with
    | ok ab =>
      have h1 : (nr == len) = false := by
        simp only [beq_eq_false_iff_ne, ne_eq]; omega
      rw [h1]
      simp only [Bool.false_eq_true, if_false]
      exact ih _ nr (by omega)
    | error e =>
      cases he : e.containsNoOtherPoolFound with
      | true =>
        cases e <;> simp_all [SimErr.containsNoOtherPoolFound]
      | false =>
        simp only [he, Bool.false_eq_true, if_false]
        cases hsr : e.containsSwapReverted with
        | true =>
          simp only [hsr, if_true]
          have h1 : (nr + 1 == len) = false := by
            simp only [beq_eq_false_iff_ne, ne_eq]; omega
          rw [h1]
          simp only [Bool.false_eq_true, if_false]
          exact ih _ (nr + 1) (by omega)
        | false =>
          simp only [hsr, Bool.false_eq_true, if_false]
          have h1 : (nr == len) = false := by
            simp only [beq_eq_false_iff_ne, ne_eq]; omega
          rw [h1]
          simp only [Bool.false_eq_true, if_false]
          exact ih _ nr (by omega)

/-- Aggregation helper: a batch containing at least one successful band never
returns `all swaps reverted`. -/
theorem step_arb_aggregate_with_ok (len : Nat) :
    ∀ (l : List (Except SimErr (Nat × Nat))) (best : Nat × Nat) (nr : Nat),
      (∃ r ∈ l, ∃ v, r = .ok v) → nr + l.length ≤ len →
      step_arb_aggregate len l best nr ≠ .error .allSwapsReverted := by
  intro l
  induction l with
  | nil =>
    intro best nr hex _
    obtain ⟨r, hr, _⟩ := hex
    cases hr
  | cons r rest ih =>
    intro best nr hex hle
    simp only [List.length_cons] at hle
    obtain ⟨r', hr', v, hv⟩ := hex
    rcases List.mem_cons.mp hr' with rfl | hmem
    · subst hv
      simp only [step_arb_aggregate]
      have h1 : (nr == len) = false := by
        simp only [beq_eq_false_iff_ne, ne_eq]; omega
      rw [h1]
      simp only [Bool.false_eq_true, if_false]
      exact step_arb_aggregate_under_len len rest _ nr (by omega)
    · have hrest : 1 ≤ rest.length := List.length_pos.mpr (List.ne_nil_of_mem hmem)
      simp only [step_arb_aggregate]
      cases r with
      | ok ab =>
        have h1 : (nr == len) = false := by
          simp only [beq_eq_false_iff_ne, ne_eq]; omega
        rw [h1]
        simp only [Bool.false_eq_true, if_false]
        exact ih _ nr ⟨r', hmem, v, hv⟩ (by omega)
      | error e =>
        cases he : e.containsNoOtherPoolFound with
        | true =>
          cases e <;> simp_all [SimErr.containsNoOtherPoolFound]
        | false =>
          simp only [he, Bool.false_eq_true, if_false]
          cases hsr : e.containsSwapReverted with
          | true =>
            simp only [hsr, if_true]
            have h1 : (nr + 1 == len) = false := by
              simp only [beq_eq_false_iff_ne, ne_eq]; omega
            rw [h1]
            simp only [Bool.false_eq_true, if_false]
            exact ih _ (nr + 1) ⟨r', hmem, v, hv⟩ (by omega)
          | false =>
            simp only [hsr, Bool.false_eq_true, if_false]
            have h1 : (nr == len) = false := by
              simp only [beq_eq_false_iff_ne, ne_eq]; omega
            rw [h1]
            simp only [Bool.false_eq_true, if_false]
            exact ih _ nr ⟨r', hmem, v, hv⟩ (by omega)

/-- Aggregation helper: a batch consisting entirely of `swap halted` errors
leaves the revert counter untouched and the loop completes normally. -/
theorem step_arb_aggregate_all_halts (len : Nat) :
    ∀ (l : List (Except SimErr (Nat × Nat))) (best : Nat × Nat) (nr : Nat),
      (∀ r ∈ l, ∃ reason, r = .error (.swapHalted reason)) →
      (l ≠ [] → nr ≠ len) →
      step_arb_aggregate len l best nr = .ok (best, nr) := by
  intro l
  induction l with
  | nil => intro best nr _ _; rfl
  | cons r rest ih =>
    intro best nr hall hnr
    obtain ⟨reason, rfl⟩ := hall _ (List.mem_cons_self _ _)
    simp only [step_arb_aggregate, SimErr.containsNoOtherPoolFound,
      SimErr.containsSwapReverted, Bool.false_eq_true, if_false]
    have h1 : (nr == len) = false := by
      simp only [beq_eq_false_iff_ne, ne_eq]
      exact hnr (by simp)
    rw [h1]
    simp only [Bool.false_eq_true, if_false]
    exact ih best nr (fun r hr => hall r (List.mem_cons_of_mem _ hr))
      (fun _ => hnr (by simp))

/-- C8 amended: in one expansion of `step_arb` (the aggregation loop over the
band results, with `revenue_len` = the number of bands), the `AllReverted`
error is returned when every band fails with a probe **revert** — but only
reverts count: a band that fails with an EVM **halt** does not increment the
counter, so an all-halted expansion completes normally instead of returning
`AllReverted`; and if at least one band succeeds the expansion never returns
`AllReverted`. -/
theorem c8_amended :
    (∀ (results : List (Except SimErr (Nat × Nat))) (best : Nat × Nat),
      results ≠ [] →
      (∀ r ∈ results, ∃ out gas, r = .error (.swapReverted out gas)) →
      step_arb_aggregate results.length results best 0 = .error .allSwapsReverted)
    ∧ (∀ (results : List (Except SimErr (Nat × Nat))) (best : Nat × Nat),
      (∃ r ∈ results, ∃ v, r = .ok v) →
      step_arb_aggregate results.length results best 0 ≠ .error .allSwapsReverted)
    ∧ (∀ (results : List (Except SimErr (Nat × Nat))) (best : Nat × Nat),
      (∀ r ∈ results, ∃ reason, r = .error (.swapHalted reason)) →
      step_arb_aggregate results.length results best 0 = .ok (best, 0)) := by
  refine ⟨?_, ?_, ?_⟩
  · intro results best hne hall
    exact step_arb_aggregate_all_reverts results.length results best 0 hall
      (by omega) hne
  · intro results best hex
    exact step_arb_aggregate_with_ok results.length results best 0 hex (by omega)
  · intro results best hall
    refine step_arb_aggregate_all_halts results.length results best 0 hall ?_
    intro hne
    have := List.length_pos.mpr hne
    omega

/-- C8 amended, witness: an expansion whose single band reverted returns
`AllReverted`; one with a successful band does not; one whose single band
halted completes normally with `num_reverts = 0`. -/
theorem c8_amended_witness :
    step_arb_aggregate 1 [.error (.swapReverted [] 0)] (0, 0) 0
      = .error .allSwapsReverted
    ∧ step_arb_aggregate 2 [.ok (1, 2), .error (.swapReverted [] 0)] (0, 0) 0
      ≠ .error .allSwapsReverted
    ∧ step_arb_aggregate 1 [.error (.swapHalted .outOfGas)] (0, 0) 0
      = .ok ((0, 0), 0) := by
  refine ⟨?_, ?_, ?_⟩
  · exact c8_amended.1 [.error (.swapReverted [] 0)] (0, 0) (by simp)
      (fun r hr => by simp only [List.mem_singleton] at hr; exact ⟨[], 0, hr⟩)
  · exact c8_amended.2.1 [.ok (1, 2), .error (.swapReverted [] 0)] (0, 0)
      ⟨.ok (1, 2), by simp, (1, 2), rfl⟩
  · exact c8_amended.2.2 [.error (.swapHalted .outOfGas)] (0, 0)
      (fun r hr => by simp only [List.mem_singleton] at hr; exact ⟨.outOfGas, hr⟩)

/-- C8 counterexample: on `M_halt` every band simulation fails with an EVM
halt (first conjunct shows one band's result; all bands are identical), yet
the driver does not return the `AllReverted` error — it finishes with
`Ok (0, 0)` (second conjunct), because `num_reverts` is only incremented for
errors whose message contains `swap reverted`, which a halt's message does
not. -/
theorem c8_counterexample :
    sim_arb M_halt () tx0 blk0 params0 0 (5, .uniswapV2) (6, .uniswapV3)
      = .error (.swapHalted .outOfGas)
    ∧ step_arb M_halt () tx0 blk0 params0 none (0, 10 ^ 15) 15 none
        (5, .uniswapV2) (6, .uniswapV3) = .ok (0, 0) :=
  ⟨by decide, by decide⟩

/-- Decoder helper: the per-hint-log loop aborts with the
`no swap logs found` error as soon as any hint log in the list lacks a
matching receipt log. -/
theorem derive_loop_unmatched (C : Client) (tx : Tx) (receipt : Receipt) :
    ∀ (l : List EventTransactionLog) (hl : EventTransactionLog), hl ∈ l →
      receipt.logs.find? (fun log =>
        log.topics.contains hl.topic0 && log.address == hl.address) = none →
      derive_trade_params_loop C tx receipt l = .error (.noSwapLogsFound tx.hash) := by
  intro l
  induction l with
  | nil => intro hl h _; cases h
  | cons h0 rest ih =>
    intro hl hmem hnone
    simp only [derive_trade_params_loop]
    cases hfind : receipt.logs.find? (fun log =>
        log.topics.contains h0.topic0 && log.address == h0.address) with
    | none => rfl
    | some full =>
      rcases List.mem_cons.mp hmem with rfl | hmem'
      · rw [hfind] at hnone; cases hnone
      · rw [ih hl hmem' hnone]

/-- C3 counterexample: `event3` carries two uniswap hint logs — one on pool
`9` with no matching receipt log, one on pool `5` that decodes fine on its own
(second conjunct) — yet `derive_trade_params` returns an error instead of
skipping the unmatched hint and returning the other trade. -/
theorem c3_counterexample :
    derive_trade_params client0 tx0 event3 = .error (.noSwapLogsFound 100)
    ∧ derive_trade_params client0 tx0 event0 = .ok [params0] :=
  ⟨by decide, by decide⟩

/-- C3 amended: when any selected hint log (a hint log whose `topics[0]` is a
uniswap swap topic) has no matching full log in the receipt, the
`ok_or(...)?` aborts the whole derivation: `derive_trade_params` returns the
`no swap logs found` error and no trade at all, rather than skipping only
that hint. -/
theorem c3_amended (C : Client) (tx : Tx) (event : EventHist) (receipt : Receipt)
    (hl : EventTransactionLog)
    (hrcpt : C.get_transaction_receipt tx.hash = some receipt)
    (hmem : hl ∈ event.logs.filter (fun log => uniswap_topics.contains log.topic0))
    (hnone : receipt.logs.find? (fun log =>
      log.topics.contains hl.topic0 && log.address == hl.address) = none) :
    derive_trade_params C tx event = .error (.noSwapLogsFound tx.hash) := by
  unfold derive_trade_params
  rw [hrcpt]
  exact derive_loop_unmatched C tx receipt _ hl hmem hnone

/-- C3 amended, witness: the concrete unmatched hint on pool `9` makes the
whole derivation fail. -/
theorem c3_amended_witness :
    derive_trade_params client0 tx0 event3 = .error (.noSwapLogsFound 100) :=
  c3_amended client0 tx0 event3 receipt0 ⟨9, univ2_topic⟩ (by decide) (by decide)
    (by decide)

/-- C9 counterexample: the decoder emits `params9`, a trade whose V2-path
amounts were taken raw from the log — `amount0_sent = -(2^255) < 0` was not
replaced by `0`, and neither amount is strictly positive — refuting both the
"negative amounts replaced by 0 on both paths" and the "at least one amount
strictly positive" parts of the claim. -/
theorem c9_counterexample :
    derive_trade_params client9 tx0 event0 = .ok [params9]
    ∧ params9.amount0_sent < 0 ∧ params9.amount1_sent ≤ 0 :=
  ⟨by decide, by decide, by decide⟩

/-- Decoder helper: any trade emitted by the per-hint-log loop with pool
family V3 has both sign-gated amounts non-negative. -/
theorem derive_loop_v3_nonneg (C : Client) (tx : Tx) (receipt : Receipt) :
    ∀ (l : List EventTransactionLog) (ts : List UserTradeParams)
      (t : UserTradeParams),
      derive_trade_params_loop C tx receipt l = .ok ts → t ∈ ts →
      t.pool_variant = .uniswapV3 → 0 ≤ t.amount0_sent ∧ 0 ≤ t.amount1_sent := by
  intro l
  induction l with
  | nil =>
    intro ts t hok hmem _
    cases hok
    cases hmem
  | cons h0 rest ih =>
    intro ts t hok hmem hv3
    simp only [derive_trade_params_loop] at hok
    cases hfind : receipt.logs.find? (fun log =>
        log.topics.contains h0.topic0 && log.address == h0.address) with
    | none => rw [hfind] at hok; cases hok
    | some full =>
      rw [hfind] at hok
      cases hrec : derive_trade_params_loop C tx receipt rest with
      | error e => rw [hrec] at hok; cases hok
      | ok ts' =>
        rw [hrec] at hok
        cases hok
        rcases List.mem_cons.mp hmem with rfl | hmem'
        · by_cases htop : (h0.topic0 == univ3_topic) = true
          · unfold deriveOneTrade
            simp only [htop, if_true]
            constructor
            · dsimp only
              split <;> omega
            · dsimp only
              split <;> omega
          · exfalso
            unfold deriveOneTrade at hv3
            simp only [htop, Bool.false_eq_true, if_false] at hv3
            cases hv3
        · exact ih ts' t hrec hmem' hv3

/-- C9 amended: the sign-gating (replacing negative decoded amounts by `0`)
happens only on the V3 path — every V3 trade the decoder emits has
`amount0_sent ≥ 0` and `amount1_sent ≥ 0` — while the V2 path uses the raw
decoded amounts, so a V2 trade may carry a negative or all-zero amount pair
(see the counterexample). -/
theorem c9_amended (C : Client) (tx : Tx) (event : EventHist)
    (ts : List UserTradeParams) (t : UserTradeParams)
    (hok : derive_trade_params C tx event = .ok ts) (hmem : t ∈ ts)
    (hv3 : t.pool_variant = .uniswapV3) :
    0 ≤ t.amount0_sent ∧ 0 ≤ t.amount1_sent := by
  unfold derive_trade_params at hok
  cases hr : C.get_transaction_receipt tx.hash with
  | none => rw [hr] at hok; cases hok
  | some receipt =>
    rw [hr] at hok
    exact derive_loop_v3_nonneg C tx receipt _ ts t hok hmem hv3

/-- C9 amended, witness: the concrete V3 trade `params9w` (decoded from a log
with `amount1 = -3`) has both amounts gated to be non-negative. -/
theorem c9_amended_witness :
    0 ≤ params9w.amount0_sent ∧ 0 ≤ params9w.amount1_sent :=
  c9_amended client9w tx0 event9w [params9w] params9w (by decide) (by simp) rfl

end Hindsight
